import Mathlib

/-!
# Verification of the arctic PMD codec and session state

Shallow embedding of the `arctic` crate (Polar H10 BLE heart-rate device
library).  The definitions below are transcribed from the Rust source:

* `src/response.rs` — `bytes_to_data`, `PmdRead::new`, `Ecg::new`,
  `Acc::new`, `HeartRate::new`;
* `src/control.rs`  — `ControlResponse::new` and the code enums;
* `src/lib.rs`      — `H10MeasurementType`, `PolarSensor::data_type_push`,
  `PolarSensor::data_type_pop`.

Machine integers are modelled as `Nat`/`Int` with explicit reductions where
the Rust code wraps or reinterprets bit patterns.  Rust slice indexing
panics when out of bounds; fallible slicing is modelled by `sliceIdx`
returning `Option`, and functions whose Rust originals can panic return an
`Outcome` with an explicit `panicked` result.
-/

namespace Arctic

/-- The crate's `Error` enum (`src/lib.rs`).  The `BleError` variant wraps a
transport error from the BLE backend and cannot arise in the pure decoding
functions modelled here, so it is omitted. -/
inductive Error where
  | noBleAdaptor
  | noControlPoint
  | noDevice
  | notConnected
  | noDataType
  | characteristicNotFound
  | invalidData
  | invalidLength
  | nullCommand
  | wrongResponse
  | wrongType
  deriving DecidableEq, Repr

/-- Result of running a Rust function that returns `PolarResult<α>` but can
also panic (out-of-bounds slice indexing, failed `expect`). -/
inductive Outcome (α : Type) where
  | ok (val : α)
  | err (e : Error)
  | panicked
  deriving DecidableEq, Repr

/-- Rust slice `l[a..b]`: defined only when `a ≤ b ≤ l.len()`; indexing
outside that range panics, which is modelled by `none`. -/
def sliceIdx (l : List Nat) (a b : Nat) : Option (List Nat) :=
  if a ≤ b ∧ b ≤ l.length then some ((l.drop a).take (b - a)) else none

/-- `H10MeasurementType` (`src/lib.rs`): the measurement types requestable
from the H10. -/
inductive H10MeasurementType where
  | ecg
  | acc
  deriving DecidableEq, Repr

/-- `H10MeasurementType::try_from::<u8>` (`src/lib.rs`): tag `0x0` is ECG,
`0x2` is ACC, everything else is rejected. -/
def H10MeasurementType.tryFrom : Nat → Option H10MeasurementType
  | 0x0 => some .ecg
  | 0x2 => some .acc
  | _ => none

/-- `H10MeasurementType::as_u8` (`src/lib.rs`). -/
def H10MeasurementType.as_u8 : H10MeasurementType → Nat
  | .ecg => 0x0
  | .acc => 0x2

/-- `H10MeasurementType::as_bytes` (`src/lib.rs`): fixed per-sample frame
width in bytes (ECG = 3, ACC = 6). -/
def H10MeasurementType.as_bytes : H10MeasurementType → Nat
  | .ecg => 3
  | .acc => 6

/-- Reinterpret an unsigned 32-bit pattern as `i32` (`i32::from_le_bytes`
applied to the assembled little-endian buffer). -/
def i32ofBits (u : Nat) : Int :=
  if u < 2 ^ 31 then (u : Int) else (u : Int) - 2 ^ 32

/-- Reinterpret an unsigned 16-bit pattern as `i16` widened to `i32`. -/
def i16ofBits (u : Nat) : Int :=
  if u < 2 ^ 15 then (u : Int) else (u : Int) - 2 ^ 16

/-- Reinterpret an unsigned 8-bit pattern as `i8` widened to `i32`. -/
def i8ofBits (u : Nat) : Int :=
  if u < 2 ^ 7 then (u : Int) else (u : Int) - 2 ^ 8

/-- `bytes_to_data` (`src/response.rs` lines 9–41): converts the first
`len` bytes of `data` (little-endian) into a sign-extended `i32`.

* `len == 3`: a 4-byte buffer holds the 3 bytes; if the top bit of
  `data[2]` is set the fourth byte is filled with `0xFF`, then the buffer
  is read as `i32`.
* `len == 2`: a 2-byte buffer is read as `i16` and widened (the source's
  sign-extension loop runs over the empty range `buf[2..2]`, a no-op).
* otherwise: a 1-byte buffer is read as `i8` and widened; for `len == 0`
  nothing is copied and the buffer stays zero.

The source indexes `data[..len]` and `data[len-1]`, so callers guarantee
`data` holds at least `len` bytes (and `len ≤ 3`); on such inputs the
`List.getD` defaults below are never used. -/
def bytes_to_data (data : List Nat) (len : Nat) : Int :=
  if len = 3 then
    let ext : Nat := if data.getD (len - 1) 0 &&& 0x80 > 0 then 0xff else 0
    i32ofBits (data.getD 0 0 + data.getD 1 0 * 2 ^ 8 + data.getD 2 0 * 2 ^ 16 + ext * 2 ^ 24)
  else if len = 2 then
    i16ofBits (data.getD 0 0 + data.getD 1 0 * 2 ^ 8)
  else
    i8ofBits (if 1 ≤ len then data.getD 0 0 else 0)

/-- `u64::from_le_bytes` on a list of bytes (little-endian). -/
def u64_from_le (bs : List Nat) : Nat :=
  bs.foldr (fun b acc => b + acc * 256) 0

/-- `Ecg` (`src/response.rs`): a single ECG sample in µV. -/
structure Ecg where
  val : Int
  deriving DecidableEq, Repr

/-- `Ecg::new` (`src/response.rs`): requires at least 3 bytes, else
`InvalidLength`; decodes `data[..3]` via `bytes_to_data` with width 3.
(The source also fills a local `mag` buffer that it never reads; that dead
code is omitted.) -/
def Ecg.new (data : List Nat) : Outcome Ecg :=
  if data.length < 3 then .err .invalidLength
  else .ok ⟨bytes_to_data (data.take 3) 3⟩

/-- `Acc` (`src/response.rs`): one accelerometer sample (x, y, z in mG). -/
structure Acc where
  x : Int
  y : Int
  z : Int
  deriving DecidableEq, Repr

/-- `Acc::new` (`src/response.rs`): requires at least 2 bytes, else
`InvalidLength`; with `frame_size = 6` decodes `data[0..2]`, `data[2..4]`,
`data[4..6]` as three signed 2-byte fields.  The slices past index 2 panic
when `data` is shorter than 6 (the guard only checks for 2). -/
def Acc.new (data : List Nat) : Outcome Acc :=
  if data.length < 2 then .err .invalidLength
  else
    match sliceIdx data 0 2, sliceIdx data 2 4, sliceIdx data 4 6 with
    | some sx, some sy, some sz =>
        .ok ⟨bytes_to_data sx 2, bytes_to_data sy 2, bytes_to_data sz 2⟩
    | _, _, _ => .panicked

/-- `PmdData` (`src/response.rs`): one decoded sample. -/
inductive PmdData where
  | ecg (e : Ecg)
  | acc (a : Acc)
  deriving DecidableEq, Repr

/-- `PmdRead` (`src/response.rs`): a decoded measurement notification. -/
structure PmdRead where
  data_type : H10MeasurementType
  time_stamp : Nat
  data : List PmdData
  deriving DecidableEq, Repr

/-- The per-type dispatch inside the sample loop of `PmdRead::new`
(`src/response.rs` lines 72–79): ECG frames go to `Ecg::new`, ACC frames
to `Acc::new`, each wrapped in the corresponding `PmdData` variant with
`?` propagating failures. -/
def decodeSample (ty : H10MeasurementType) (frame : List Nat) : Outcome PmdData :=
  match ty with
  | .ecg =>
    match Ecg.new frame with
    | .ok e => .ok (.ecg e)
    | .err er => .err er
    | .panicked => .panicked
  | .acc =>
    match Acc.new frame with
    | .ok a => .ok (.acc a)
    | .err er => .err er
    | .panicked => .panicked

/-- The sample loop of `PmdRead::new` (`src/response.rs` lines 71–81):
`n` remaining iterations, reading `data_stream[pos..pos+frame_length]`
each time and advancing `pos` by the frame length.  A `?` failure of the
per-type constructor propagates; an out-of-bounds slice panics. -/
def pmdLoop (ty : H10MeasurementType) (data_stream : List Nat) (fl : Nat)
    (pos : Nat) : Nat → Outcome (List PmdData)
  | 0 => .ok []
  | n + 1 =>
    match sliceIdx data_stream pos (pos + fl) with
    | none => .panicked
    | some frame =>
      match decodeSample ty frame with
      | .ok s =>
        match pmdLoop ty data_stream fl (pos + fl) n with
        | .ok rest => .ok (s :: rest)
        | .err er => .err er
        | .panicked => .panicked
      | .err er => .err er
      | .panicked => .panicked

/-- `PmdRead::new` (`src/response.rs` lines 53–88):

1. `data_stream[0]` is the type tag (indexing panics on empty input);
   unknown tags give `InvalidData`.
2. `data_stream[1..9]` is the little-endian timestamp (the slice panics
   when fewer than 9 bytes are present).
3. `data_stream[10..]` is cut into `⌊(len − 10) / frame_length⌋` frames
   (the slice panics when fewer than 10 bytes are present; byte 9 is
   skipped); each frame is decoded by the per-type constructor. -/
def PmdRead.new (data_stream : List Nat) : Outcome PmdRead :=
  match data_stream.get? 0 with
  | none => .panicked
  | some tag =>
    match H10MeasurementType.tryFrom tag with
    | none => .err .invalidData
    | some data_type =>
      match sliceIdx data_stream 1 9 with
      | none => .panicked
      | some tsBytes =>
        let time_stamp := u64_from_le tsBytes
        if data_stream.length < 10 then .panicked
        else
          let frame_length := data_type.as_bytes
          let samples := (data_stream.length - 10) / frame_length
          match pmdLoop data_type data_stream frame_length 10 samples with
          | .ok data => .ok ⟨data_type, time_stamp, data⟩
          | .err er => .err er
          | .panicked => .panicked

/-- C1: sign extension in `bytes_to_data`. For every 3-byte input whose most
significant byte (index 2) has its top bit set, the result is negative; and
on the documented vectors it returns −1 for `[0xFF,0xFF,0xFF]`, 1 048 576
for `[0x00,0x00,0x10]`, −1 for `[0xFF,0xFF]`, 4096 for `[0x00,0x10]`, −1
for `[0xFF]`, and 16 for `[0x10]`. -/
theorem c1_sign_extension_and_vectors (b0 b1 b2 : Nat)
    (h0 : b0 < 256) (h1 : b1 < 256) (h2 : b2 < 256) (htop : b2 &&& 0x80 > 0) :
    bytes_to_data [b0, b1, b2] 3 < 0
    ∧ bytes_to_data [0xFF, 0xFF, 0xFF] 3 = -1
    ∧ bytes_to_data [0x00, 0x00, 0x10] 3 = 1048576
    ∧ bytes_to_data [0xFF, 0xFF] 2 = -1
    ∧ bytes_to_data [0x00, 0x10] 2 = 4096
    ∧ bytes_to_data [0xFF] 1 = -1
    ∧ bytes_to_data [0x10] 1 = 16 := by
  refine ⟨?_, by decide, by decide, by decide, by decide, by decide, by decide⟩
  have hd : bytes_to_data [b0, b1, b2] 3
      = i32ofBits (b0 + b1 * 2 ^ 8 + b2 * 2 ^ 16
          + (if b2 &&& 0x80 > 0 then 0xff else 0) * 2 ^ 24) := rfl
  rw [hd, if_pos htop, i32ofBits]
  have hub : b0 + b1 * 2 ^ 8 + b2 * 2 ^ 16 + 0xff * 2 ^ 24 < 2 ^ 32 := by omega
  have hlb : ¬ (b0 + b1 * 2 ^ 8 + b2 * 2 ^ 16 + 0xff * 2 ^ 24 < 2 ^ 31) := by omega
  rw [if_neg hlb]
  have hcast : ((b0 + b1 * 2 ^ 8 + b2 * 2 ^ 16 + 0xff * 2 ^ 24 : Nat) : Int) < 2 ^ 32 := by
    exact_mod_cast hub
  omega

/-- Witness for C1 at the concrete input `[0x00, 0x00, 0x80]`. -/
theorem c1_witness : bytes_to_data [0x00, 0x00, 0x80] 3 < 0 :=
  (c1_sign_extension_and_vectors 0x00 0x00 0x80 (by decide) (by decide)
    (by decide) (by decide)).1

/-- C2: behaviour of `PmdRead::new` on truncated notifications.  The claim
says any payload shorter than the per-type minimum yields `InvalidLength`
without panicking; the code instead panics on out-of-bounds slice indexing
for every payload shorter than 10 bytes (empty input panics at
`data_stream[0]`, 1–8 bytes at `data_stream[1..9]`, 9 bytes at
`data_stream[10..]`), never returning `InvalidLength`. -/
theorem c2_truncated_payload_panics :
    PmdRead.new [0x00] = .panicked
    ∧ PmdRead.new [] = .panicked
    ∧ PmdRead.new [0x02, 0xea, 0x54, 0xa2, 0x42, 0x8b, 0x45, 0x52, 0x08] = .panicked
    ∧ PmdRead.new [0x00] ≠ .err .invalidLength := by
  refine ⟨by decide, by decide, by decide, by decide⟩

/-- Slice success: `l[a..b]` is defined when `a ≤ b ≤ l.len()`. -/
theorem sliceIdx_some {l : List Nat} {a b : Nat} (hab : a ≤ b) (hbl : b ≤ l.length) :
    sliceIdx l a b = some ((l.drop a).take (b - a)) := by
  unfold sliceIdx
  rw [if_pos ⟨hab, hbl⟩]

/-- Length of an in-bounds slice. -/
theorem sliceIdx_len {l : List Nat} {a b : Nat} (hbl : b ≤ l.length) :
    ((l.drop a).take (b - a)).length = b - a := by
  simp only [List.length_take, List.length_drop]
  omega

/-- `Ecg::new` succeeds on every full 3-byte frame. -/
theorem Ecg_new_ok {frame : List Nat} (h : frame.length = 3) :
    Ecg.new frame = .ok ⟨bytes_to_data (frame.take 3) 3⟩ := by
  unfold Ecg.new
  rw [if_neg (by omega)]

/-- `Acc::new` succeeds on every full 6-byte frame. -/
theorem Acc_new_ok {frame : List Nat} (h : frame.length = 6) :
    ∃ a, Acc.new frame = .ok a := by
  unfold Acc.new
  rw [if_neg (by omega), sliceIdx_some (by omega) (by omega),
    sliceIdx_some (by omega) (by omega), sliceIdx_some (by omega) (by omega)]
  exact ⟨_, rfl⟩

/-- Per-type sample decode succeeds on every frame of exactly the type's
frame width. -/
theorem decodeSample_ok (ty : H10MeasurementType) (frame : List Nat)
    (h : frame.length = ty.as_bytes) :
    ∃ s, decodeSample ty frame = .ok s := by
  cases ty with
  | ecg =>
    refine ⟨.ecg ⟨bytes_to_data (frame.take 3) 3⟩, ?_⟩
    simp only [decodeSample, Ecg_new_ok h]
  | acc =>
    obtain ⟨a, ha⟩ := Acc_new_ok h
    exact ⟨.acc a, by simp only [decodeSample, ha]⟩

/-- The sample loop of `PmdRead::new` never fails while the frames it reads
stay inside the payload: it returns exactly `n` decoded samples. -/
theorem pmdLoop_ok (ty : H10MeasurementType) (ds : List Nat) :
    ∀ (n pos : Nat), pos + n * ty.as_bytes ≤ ds.length →
    ∃ l, pmdLoop ty ds ty.as_bytes pos n = .ok l ∧ l.length = n := by
  intro n
  induction n with
  | zero => exact fun pos _ => ⟨[], rfl, rfl⟩
  | succ n ih =>
    intro pos hb
    have hfl3 : 3 ≤ ty.as_bytes := by cases ty <;> decide
    have hpos : pos + ty.as_bytes ≤ ds.length := by
      have : ty.as_bytes ≤ (n + 1) * ty.as_bytes := Nat.le_mul_of_pos_left _ (by omega)
      omega
    have hframe := sliceIdx_some (l := ds) (a := pos) (b := pos + ty.as_bytes)
      (by omega) hpos
    have hflen : ((ds.drop pos).take (pos + ty.as_bytes - pos)).length = ty.as_bytes := by
      rw [sliceIdx_len hpos]; omega
    obtain ⟨s, hs⟩ := decodeSample_ok ty _ hflen
    obtain ⟨rest, hrest, hrlen⟩ := ih (pos + ty.as_bytes) (by
      have : (n + 1) * ty.as_bytes = n * ty.as_bytes + ty.as_bytes := by ring
      omega)
    refine ⟨s :: rest, ?_, by simp [hrlen]⟩
    simp only [pmdLoop, hframe, hs, hrest]

/-- C3 counterexample: a 14-byte ECG notification whose post-header data
(4 bytes) is not divisible by the ECG frame width 3 is *not* rejected with
`InvalidLength`; `PmdRead::new` decodes one frame and silently drops the
trailing byte `0xAA`. -/
theorem c3_counterexample :
    (14 - 10) % H10MeasurementType.ecg.as_bytes ≠ 0
    ∧ PmdRead.new [0x00, 0, 0, 0, 0, 0, 0, 0, 0, 0, 0xff, 0xff, 0xff, 0xaa]
        = .ok ⟨.ecg, 0, [.ecg ⟨-1⟩]⟩ := by
  refine ⟨by decide, by decide⟩

/-- C3 amended: `PmdRead::new` does not enforce divisibility of the
post-header data length by the frame width.  For every payload of length
at least 10 whose type tag is valid, it returns `Ok` with exactly
`⌊(len − 10) / frame_width⌋` decoded samples, ignoring any remainder
bytes. -/
theorem c3_amended_prefix_decode (ds : List Nat) (ty : H10MeasurementType)
    (hty : H10MeasurementType.tryFrom (ds.getD 0 0) = some ty)
    (hlen : 10 ≤ ds.length) :
    ∃ r : PmdRead, PmdRead.new ds = .ok r ∧ r.data_type = ty
      ∧ r.data.length = (ds.length - 10) / ty.as_bytes := by
  cases ds with
  | nil => simp at hlen
  | cons a t =>
    simp only [List.getD_cons_zero] at hty
    have hsamples : 10 + ((a :: t).length - 10) / ty.as_bytes * ty.as_bytes
        ≤ (a :: t).length := by
      have hfl : 0 < ty.as_bytes := by cases ty <;> decide
      have := Nat.div_mul_le_self ((a :: t).length - 10) ty.as_bytes
      omega
    obtain ⟨l, hl, hll⟩ := pmdLoop_ok ty (a :: t)
      (((a :: t).length - 10) / ty.as_bytes) 10 hsamples
    refine ⟨⟨ty, u64_from_le (((a :: t).drop 1).take (9 - 1)), l⟩, ?_, rfl, hll⟩
    have hslice := sliceIdx_some (l := a :: t) (a := 1) (b := 9) (by omega) (by omega)
    simp only [PmdRead.new, List.get?_cons_zero, hty, hslice, hl, if_neg (by omega : ¬ (a :: t).length < 10)]

/-- Witness for C3 amended at a concrete 14-byte ECG payload with one full
frame plus 1 remainder byte. -/
theorem c3_witness :
    ∃ r : PmdRead, PmdRead.new [0x00, 1, 0, 0, 0, 0, 0, 0, 0, 0, 1, 2, 3, 4] = .ok r
      ∧ r.data_type = .ecg ∧ r.data.length = (14 - 10) / H10MeasurementType.ecg.as_bytes := by
  have h := c3_amended_prefix_decode [0x00, 1, 0, 0, 0, 0, 0, 0, 0, 0, 1, 2, 3, 4]
    .ecg (by decide) (by decide)
  simpa using h

/-- `HeartRate` (`src/response.rs`): bpm plus optional RR intervals. -/
structure HeartRate where
  bpm : Nat
  rr : Option (List Nat)
  deriving DecidableEq, Repr

/-- Rust `as u32` applied to an `i32` value: two's-complement
reinterpretation, i.e. reduction modulo `2^32`. -/
def u32ofI32 (v : Int) : Nat :=
  (v % 2 ^ 32).toNat

/-- One RR conversion from `HeartRate::new` (`src/response.rs` line 203):
`((bytes_to_data(frame, 2) as u32 * 128) / 125) as u16`.  The `u32`
multiplication wraps modulo `2^32` (release-mode Rust semantics) and the
final `as u16` cast truncates modulo `2^16`. -/
def rrConv (frame : List Nat) : Nat :=
  u32ofI32 (bytes_to_data frame 2) * 128 % 2 ^ 32 / 125 % 2 ^ 16

/-- The RR loop of `HeartRate::new` (`src/response.rs` lines 202–204):
iteration `i` reads `data[i*2+2..i*2+4]`; `n` iterations remain. -/
def hrLoop (data : List Nat) (i : Nat) : Nat → Outcome (List Nat)
  | 0 => .ok []
  | n + 1 =>
    match sliceIdx data (i * 2 + 2) (i * 2 + 4) with
    | none => .panicked
    | some frame =>
      match hrLoop data (i + 1) n with
      | .ok rest => .ok (rrConv frame :: rest)
      | .err er => .err er
      | .panicked => .panicked

/-- `HeartRate::new` (`src/response.rs` lines 184–213): requires at least
2 bytes, else `InvalidLength`.  Byte 0 is the flags byte: if bit 4 is set
the region after the bpm byte is read as `⌊(len − 2) / 2⌋` RR pairs,
otherwise no RR data is read.  `rr` is `None` exactly when no RR samples
were collected. -/
def HeartRate.new (data : List Nat) : Outcome HeartRate :=
  if data.length < 2 then .err .invalidLength
  else
    let flags := data.getD 0 0
    let samples := if flags &&& 0b00010000 = 16 then (data.length - 2) / 2 else 0
    let bpm := data.getD 1 0
    match hrLoop data 0 samples with
    | .ok rr_samp => .ok ⟨bpm, if rr_samp ≠ [] then some rr_samp else none⟩
    | .err er => .err er
    | .panicked => .panicked

/-- C4 counterexample: on the payload `[16, 60, 55, 4]` the raw RR value is
`55 + 4·256 = 1079`; the claimed conversion `value*1000/1024` gives 1053,
but `HeartRate::new` produces 1104 (`= 1079*128/125`). -/
theorem c4_counterexample :
    HeartRate.new [16, 60, 55, 4] = .ok ⟨60, some [1104]⟩
    ∧ (55 + 4 * 256) * 1000 / 1024 = 1053
    ∧ (1104 : Nat) ≠ 1053 := by
  refine ⟨by decide, by decide, by decide⟩

/-- C4 amended: `HeartRate::new` converts each raw RR value `v` as
`v * 128 / 125` (truncating u32 arithmetic, i.e. multiplication by 1.024),
not `v * 1000 / 1024`.  Stated for a single-pair payload with the
RR-present flag set and a raw value below `0x8000`, where the i32→u32 cast
and the mod-`2^32`/mod-`2^16` reductions are the identity. -/
theorem c4_amended_rr_conversion (bpm b0 b1 : Nat)
    (h0 : b0 < 256) (h1 : b1 < 128) :
    HeartRate.new [16, bpm, b0, b1] = .ok ⟨bpm, some [(b0 + b1 * 256) * 128 / 125]⟩ := by
  have hval : bytes_to_data [b0, b1] 2 = (b0 + b1 * 256 : Nat) := by
    have : bytes_to_data [b0, b1] 2 = i16ofBits (b0 + b1 * 2 ^ 8) := rfl
    rw [this, i16ofBits, if_pos (by omega)]
    push_cast
    ring
  have hfr : sliceIdx [16, bpm, b0, b1] (0 * 2 + 2) (0 * 2 + 4) = some [b0, b1] := by
    have := sliceIdx_some (l := [16, bpm, b0, b1]) (a := 2) (b := 4) (by omega) (by simp)
    simpa using this
  have hconv : rrConv [b0, b1] = (b0 + b1 * 256) * 128 / 125 := by
    rw [rrConv, hval, u32ofI32]
    have hnn : ((b0 + b1 * 256 : Nat) : Int) % 2 ^ 32 = ((b0 + b1 * 256 : Nat) : Int) := by
      rw [Int.emod_eq_of_lt (by positivity) (by push_cast; omega)]
    rw [hnn]
    have ht : ((b0 + b1 * 256 : Nat) : Int).toNat = b0 + b1 * 256 := Int.toNat_natCast _
    rw [ht]
    have hm32 : (b0 + b1 * 256) * 128 % 2 ^ 32 = (b0 + b1 * 256) * 128 :=
      Nat.mod_eq_of_lt (by omega)
    rw [hm32]
    exact Nat.mod_eq_of_lt (by omega)
  have hloop : hrLoop [16, bpm, b0, b1] 0 1 = .ok [(b0 + b1 * 256) * 128 / 125] := by
    simp only [hrLoop, hfr, hconv]
  have hlen : ¬ ([16, bpm, b0, b1] : List Nat).length < 2 := by simp
  simp only [HeartRate.new, if_neg hlen]
  norm_num [hloop]

/-- Witness for C4 amended at `bpm = 60`, raw bytes `[55, 4]`
(raw value 1079, converted RR 1104). -/
theorem c4_witness :
    HeartRate.new [16, 60, 55, 4] = .ok ⟨60, some [(55 + 4 * 256) * 128 / 125]⟩ :=
  c4_amended_rr_conversion 60 55 4 (by decide) (by decide)

/-- C5: `HeartRate::new [16, 60, 55, 4, 7, 3]` succeeds with bpm 60 and
RR intervals `[1104, 793]`. -/
theorem c5_heart_rate_vector :
    HeartRate.new [16, 60, 55, 4, 7, 3] = .ok ⟨60, some [1104, 793]⟩ := by
  decide

/-- The RR loop of `HeartRate::new` stays in bounds and succeeds whenever
the last pair it reads ends within the payload. -/
theorem hrLoop_ok (data : List Nat) :
    ∀ (n i : Nat), 2 + (i + n) * 2 ≤ data.length →
    ∃ l, hrLoop data i n = .ok l := by
  intro n
  induction n with
  | zero => exact fun i _ => ⟨[], rfl⟩
  | succ n ih =>
    intro i hb
    have hfr := sliceIdx_some (l := data) (a := i * 2 + 2) (b := i * 2 + 4)
      (by omega) (by omega)
    obtain ⟨rest, hrest⟩ := ih (i + 1) (by omega)
    refine ⟨rrConv ((data.drop (i * 2 + 2)).take (i * 2 + 4 - (i * 2 + 2))) :: rest, ?_⟩
    simp only [hrLoop, hfr, hrest]

/-- C10: `HeartRate::new` is total.  It returns `InvalidLength` exactly on
inputs shorter than 2 bytes; on everything else it returns `Ok`, and it
never panics — all internal reads stay in bounds, including when the
RR-present flag is set over an odd-length RR region (the floor division
`(len − 2) / 2` skips the unpaired trailing byte). -/
theorem c10_heart_rate_total (data : List Nat) :
    (HeartRate.new data = .err .invalidLength ↔ data.length < 2)
    ∧ (2 ≤ data.length → ∃ h : HeartRate, HeartRate.new data = .ok h)
    ∧ HeartRate.new data ≠ .panicked := by
  by_cases hl : data.length < 2
  · have h : HeartRate.new data = .err .invalidLength := by
      simp only [HeartRate.new, if_pos hl]
    exact ⟨⟨fun _ => hl, fun _ => h⟩, fun h2 => absurd h2 (by omega), by simp [h]⟩
  · have hbound : 2 + (0 + (if data.getD 0 0 &&& 0b00010000 = 16
        then (data.length - 2) / 2 else 0)) * 2 ≤ data.length := by
      split_ifs
      · have := Nat.div_mul_le_self (data.length - 2) 2
        omega
      · omega
    obtain ⟨l, hlok⟩ := hrLoop_ok data _ 0 hbound
    have hok : HeartRate.new data
        = .ok ⟨data.getD 1 0, if l ≠ [] then some l else none⟩ := by
      simp only [HeartRate.new, if_neg hl, hlok]
    refine ⟨⟨fun hh => ?_, fun h2 => absurd h2 hl⟩, fun _ => ⟨_, hok⟩, by simp [hok]⟩
    rw [hok] at hh
    exact absurd hh (by simp)

/-- Witness for C10 at the 5-byte payload `[16, 80, 1, 0, 2]` (RR flag set,
odd RR region: one pair plus an ignored trailing byte). -/
theorem c10_witness : ∃ h : HeartRate, HeartRate.new [16, 80, 1, 0, 2] = .ok h :=
  (c10_heart_rate_total [16, 80, 1, 0, 2]).2.1 (by decide)

/-- `ControlPointCommand` (`src/control.rs`): op-codes written to the PMD
control point. -/
inductive ControlPointCommand where
  | null
  | getMeasurementSettings
  | requestMeasurementStart
  | stopMeasurement
  | getSdkModeMeasurementSettings
  deriving DecidableEq, Repr

/-- `ControlPointCommand::try_from::<u8>` (`src/control.rs` lines 21–37). -/
def ControlPointCommand.tryFrom : Nat → Option ControlPointCommand
  | 0 => some .null
  | 1 => some .getMeasurementSettings
  | 2 => some .requestMeasurementStart
  | 3 => some .stopMeasurement
  | 4 => some .getSdkModeMeasurementSettings
  | _ => none

/-- `ControlPointResponseCode` (`src/control.rs`): the device's 14 status
codes. -/
inductive ControlPointResponseCode where
  | success
  | invalidOpCode
  | invalidMeasurementType
  | notSupported
  | invalidLength
  | invalidParameter
  | alreadyInState
  | invalidResolution
  | invalidSampleRate
  | invalidRange
  | invalidMTU
  | invalidNumberOfChannels
  | invalidState
  | deviceInCharger
  deriving DecidableEq, Repr

/-- `ControlPointResponseCode::try_from::<u8>` (`src/control.rs`
lines 57–82). -/
def ControlPointResponseCode.tryFrom : Nat → Option ControlPointResponseCode
  | 0 => some .success
  | 1 => some .invalidOpCode
  | 2 => some .invalidMeasurementType
  | 3 => some .notSupported
  | 4 => some .invalidLength
  | 5 => some .invalidParameter
  | 6 => some .alreadyInState
  | 7 => some .invalidResolution
  | 8 => some .invalidSampleRate
  | 9 => some .invalidRange
  | 10 => some .invalidMTU
  | 11 => some .invalidNumberOfChannels
  | 12 => some .invalidState
  | 13 => some .deviceInCharger
  | _ => none

/-- `ResponseCode` (`src/control.rs`): ATT-level response codes; byte 0 of
a control-point notification is parsed as one of these. -/
inductive ResponseCode where
  | success
  | invalidHandle
  | readNotPermitted
  | writeNotPermitted
  | invalidPdu
  | insufficientAuthentication
  | requestNotSupported
  | invalidOffset
  | insufficientAuthorization
  | prepareQueueFull
  | attributeNotFound
  | attributeNotLong
  | insufficientEncryptionKeySize
  | insufficientAttributeValueLength
  | unlikelyError
  | insufficientEncryption
  | unsupportedGroupType
  | insufficientResources
  deriving DecidableEq, Repr

/-- `ResponseCode::try_from::<u8>` (`src/control.rs` lines 143–172): only
the values 0–17 are accepted. -/
def ResponseCode.tryFrom : Nat → Option ResponseCode
  | 0 => some .success
  | 1 => some .invalidHandle
  | 2 => some .readNotPermitted
  | 3 => some .writeNotPermitted
  | 4 => some .invalidPdu
  | 5 => some .insufficientAuthentication
  | 6 => some .requestNotSupported
  | 7 => some .invalidOffset
  | 8 => some .insufficientAuthorization
  | 9 => some .prepareQueueFull
  | 10 => some .attributeNotFound
  | 11 => some .attributeNotLong
  | 12 => some .insufficientEncryptionKeySize
  | 13 => some .insufficientAttributeValueLength
  | 14 => some .unlikelyError
  | 15 => some .insufficientEncryption
  | 16 => some .unsupportedGroupType
  | 17 => some .insufficientResources
  | _ => none

/-- `ControlResponse` (`src/control.rs`): a decoded control-point
notification. -/
structure ControlResponse where
  response_code : ResponseCode
  opcode : ControlPointCommand
  measurement_type : H10MeasurementType
  status : ControlPointResponseCode
  parameters : List Nat
  more : Bool
  deriving DecidableEq, Repr

/-- `ControlResponse::new` (`src/control.rs` lines 185–216): requires at
least 4 bytes (else `InvalidData`); bytes 0–3 are parsed as response code,
opcode, measurement type and status, each failing with `InvalidData` on an
unknown value.  Only when the status is `Success` are the parameters
(`data[5..]`, if longer than 5 bytes) captured and the more-flag
(`data[4] != 0`, if longer than 4 bytes) read; otherwise both stay at
their defaults (empty, `false`). -/
def ControlResponse.new (data : List Nat) : Except Error ControlResponse :=
  if data.length < 4 then .error .invalidData
  else
    match ResponseCode.tryFrom (data.getD 0 0) with
    | none => .error .invalidData
    | some response_code =>
      match ControlPointCommand.tryFrom (data.getD 1 0) with
      | none => .error .invalidData
      | some opcode =>
        match H10MeasurementType.tryFrom (data.getD 2 0) with
        | none => .error .invalidData
        | some measurement_type =>
          match ControlPointResponseCode.tryFrom (data.getD 3 0) with
          | none => .error .invalidData
          | some status =>
            let parameters : List Nat :=
              if status = .success ∧ data.length > 5 then data.drop 5 else []
            let more : Bool :=
              if status = .success then
                if data.length > 4 ∧ data.getD 4 0 ≠ 0 then true else false
              else false
            .ok ⟨response_code, opcode, measurement_type, status, parameters, more⟩

/-- C6 counterexample: the 0xF0-marker framing documented by the spec is
*rejected* by `ControlResponse::new`: byte 0 is parsed as an ATT
`ResponseCode` (valid range 0–17), so `0xF0 = 240` yields `InvalidData`
even when opcode, measurement-type and status bytes are valid. -/
theorem c6_counterexample :
    ControlResponse.new [0xF0, 0x01, 0x00, 0x00] = .error .invalidData := by
  rfl

/-- C6 amended: `ControlResponse::new` accepts only the marker-less
variant: every response of at least 4 bytes whose byte 0 is a valid ATT
response code (0–17), byte 1 a valid opcode (0–4), byte 2 a valid
measurement-type tag (0 or 2) and byte 3 a valid status (0–13) parses
successfully; the 0xF0 marker byte is never a valid byte 0. -/
theorem c6_amended_accepts_markerless (data : List Nat) (hlen : 4 ≤ data.length)
    (h0 : data.getD 0 0 ≤ 17) (h1 : data.getD 1 0 ≤ 4)
    (h2 : data.getD 2 0 = 0 ∨ data.getD 2 0 = 2) (h3 : data.getD 3 0 ≤ 13) :
    (∃ r, ControlResponse.new data = .ok r)
    ∧ ResponseCode.tryFrom 0xF0 = none := by
  refine ⟨?_, rfl⟩
  obtain ⟨rc, hrc⟩ : ∃ rc, ResponseCode.tryFrom (data.getD 0 0) = some rc := by
    interval_cases h : data.getD 0 0 <;> exact ⟨_, rfl⟩
  obtain ⟨oc, hoc⟩ : ∃ oc, ControlPointCommand.tryFrom (data.getD 1 0) = some oc := by
    interval_cases h : data.getD 1 0 <;> exact ⟨_, rfl⟩
  obtain ⟨mt, hmt⟩ : ∃ mt, H10MeasurementType.tryFrom (data.getD 2 0) = some mt := by
    rcases h2 with h2 | h2 <;> rw [h2] <;> exact ⟨_, rfl⟩
  obtain ⟨st, hst⟩ : ∃ st, ControlPointResponseCode.tryFrom (data.getD 3 0) = some st := by
    interval_cases h : data.getD 3 0 <;> exact ⟨_, rfl⟩
  refine ⟨⟨rc, oc, mt, st,
    if st = .success ∧ data.length > 5 then data.drop 5 else [],
    if st = .success then (if data.length > 4 ∧ data.getD 4 0 ≠ 0 then true else false)
    else false⟩, ?_⟩
  simp only [ControlResponse.new, if_neg (by omega : ¬ data.length < 4),
    hrc, hoc, hmt, hst]

/-- Witness for C6 amended at the 4-byte notification `[0, 1, 0, 0]`. -/
theorem c6_witness :
    (∃ r, ControlResponse.new [0, 1, 0, 0] = .ok r)
    ∧ ResponseCode.tryFrom 0xF0 = none :=
  c6_amended_accepts_markerless [0, 1, 0, 0] (by decide) (by decide) (by decide)
    (Or.inl (by decide)) (by decide)

/-- C7: `ControlResponse::new` rejects every input shorter than 4 bytes;
and every successfully parsed response whose status is not `Success`
retains that status but has empty parameters and a cleared more-flag. -/
theorem c7_short_input_and_failed_status (data : List Nat) (r : ControlResponse) :
    (data.length < 4 → ControlResponse.new data = .error .invalidData)
    ∧ (ControlResponse.new data = .ok r → r.status ≠ .success →
        r.parameters = [] ∧ r.more = false) := by
  constructor
  · intro hlen
    simp only [ControlResponse.new, if_pos hlen]
  · intro hok hst
    by_cases hlen : data.length < 4
    · simp only [ControlResponse.new, if_pos hlen] at hok
      cases hok
    · simp only [ControlResponse.new, if_neg hlen] at hok
      rcases hc0 : ResponseCode.tryFrom (data.getD 0 0) with _ | rc <;> rw [hc0] at hok
      · cases hok
      rcases hc1 : ControlPointCommand.tryFrom (data.getD 1 0) with _ | oc <;>
        rw [hc1] at hok
      · cases hok
      rcases hc2 : H10MeasurementType.tryFrom (data.getD 2 0) with _ | mt <;>
        rw [hc2] at hok
      · cases hok
      rcases hc3 : ControlPointResponseCode.tryFrom (data.getD 3 0) with _ | st <;>
        rw [hc3] at hok
      · cases hok
      simp only [Except.ok.injEq] at hok
      subst hok
      simp only at hst
      rw [if_neg (by simp [hst]), if_neg (by simp [hst])]
      exact ⟨rfl, rfl⟩

/-- Witness for C7: the 3-byte input `[1, 2, 3]` is rejected, and the
parsed response for `[0, 1, 0, 4]` (status `InvalidLength ≠ Success`) has
empty parameters and a cleared more-flag. -/
theorem c7_witness :
    ControlResponse.new [1, 2, 3] = .error .invalidData
    ∧ ((⟨.success, .getMeasurementSettings, .ecg, .invalidLength, [], false⟩ :
        ControlResponse).parameters = []
      ∧ (⟨.success, .getMeasurementSettings, .ecg, .invalidLength, [], false⟩ :
        ControlResponse).more = false) :=
  ⟨(c7_short_input_and_failed_status [1, 2, 3]
      ⟨.success, .null, .ecg, .success, [], false⟩).1 (by decide),
   (c7_short_input_and_failed_status [0, 1, 0, 4]
      ⟨.success, .getMeasurementSettings, .ecg, .invalidLength, [], false⟩).2
      rfl (by decide)⟩

/-- `PolarSensor::data_type_push` (`src/lib.rs` lines 588–599), acting on
the `data_type: Option<Vec<H10MeasurementType>>` field: with no type set,
start a fresh singleton list; with a list present, append `t` only when the
list does not already hold 2 entries and its first entry differs from `t`
(`&&` short-circuits, so `types[0]` is only read when the length check
passes).  On `Some(vec![])` the source would panic at `types[0]`; that
state is unreachable from a fresh sensor (see the C8 invariant), and the
model leaves it unchanged. -/
def data_type_push (s : Option (List H10MeasurementType)) (t : H10MeasurementType) :
    Option (List H10MeasurementType) :=
  match s with
  | some (t0 :: rest) =>
    if (t0 :: rest).length ≠ 2 ∧ t0 ≠ t then some (t0 :: rest ++ [t])
    else some (t0 :: rest)
  | some [] => some []
  | none => some [t]

/-- `PolarSensor::data_type_pop` (`src/lib.rs` lines 602–609): retain all
entries different from `t`; if the list becomes empty, collapse the field
to `None`. -/
def data_type_pop (s : Option (List H10MeasurementType)) (t : H10MeasurementType) :
    Option (List H10MeasurementType) :=
  match s with
  | some data =>
    let kept := data.filter (fun x => x ≠ t)
    if kept.isEmpty then none else some kept
  | none => none

/-- One call against the requested-type state. -/
inductive DataTypeOp where
  | push (t : H10MeasurementType)
  | pop (t : H10MeasurementType)
  deriving DecidableEq, Repr

/-- A sequence of `data_type_push` / `data_type_pop` calls starting from a
given state.  A fresh `PolarSensor` starts at `none`
(`src/lib.rs` line 304). -/
def runDataTypeOps : Option (List H10MeasurementType) → List DataTypeOp →
    Option (List H10MeasurementType)
  | s, [] => s
  | s, .push t :: ops => runDataTypeOps (data_type_push s t) ops
  | s, .pop t :: ops => runDataTypeOps (data_type_pop s t) ops

/-- The requested-type state invariant: either the distinct unset state
`none` (never `some []`), or a nonempty duplicate-free list of at most 2
measurement types. -/
def DataTypeInv (s : Option (List H10MeasurementType)) : Prop :=
  s = none ∨ ∃ l, s = some l ∧ l ≠ [] ∧ l.length ≤ 2 ∧ l.Nodup

/-- `data_type_push` preserves the requested-type invariant. -/
theorem data_type_push_inv (s : Option (List H10MeasurementType))
    (t : H10MeasurementType) (h : DataTypeInv s) :
    DataTypeInv (data_type_push s t) := by
  rcases h with h | ⟨l, rfl, hne, hlen, hnd⟩
  · subst h
    exact Or.inr ⟨[t], rfl, by simp, by simp, by simp⟩
  · cases l with
    | nil => exact absurd rfl hne
    | cons t0 rest =>
      by_cases hc : (t0 :: rest).length ≠ 2 ∧ t0 ≠ t
      · have hrest : rest = [] := by
          have := hc.1
          simp only [List.length_cons] at this hlen
          exact List.length_eq_zero.mp (by omega)
        subst hrest
        refine Or.inr ⟨[t0, t], ?_, by simp, by simp, ?_⟩
        · simp [data_type_push, hc]
        · simp [List.nodup_cons, hc.2]
      · exact Or.inr ⟨t0 :: rest, by simp only [data_type_push, if_neg hc],
          hne, hlen, hnd⟩

/-- `data_type_pop` preserves the requested-type invariant. -/
theorem data_type_pop_inv (s : Option (List H10MeasurementType))
    (t : H10MeasurementType) (h : DataTypeInv s) :
    DataTypeInv (data_type_pop s t) := by
  rcases h with h | ⟨l, rfl, _hne, hlen, hnd⟩
  · subst h
    exact Or.inl rfl
  · simp only [data_type_pop]
    by_cases he : (l.filter (fun x => x ≠ t)).isEmpty
    · rw [if_pos he]
      exact Or.inl rfl
    · rw [if_neg he]
      refine Or.inr ⟨l.filter (fun x => x ≠ t), rfl, ?_, ?_, hnd.filter _⟩
      · simpa [List.isEmpty_iff] using he
      · exact le_trans (List.length_filter_le _ l) hlen

/-- Any sequence of push/pop calls preserves the invariant. -/
theorem runDataTypeOps_inv (ops : List DataTypeOp) :
    ∀ s, DataTypeInv s → DataTypeInv (runDataTypeOps s ops) := by
  induction ops with
  | nil => exact fun s h => h
  | cons op rest ih =>
    intro s h
    cases op with
    | push t => exact ih _ (data_type_push_inv s t h)
    | pop t => exact ih _ (data_type_pop_inv s t h)

/-- C8: starting from a fresh `PolarSensor` (requested types unset), after
every sequence of `data_type_push`/`data_type_pop` calls the state is
either `none` (distinct unset state, never `some []`) or a duplicate-free
list of 1 or 2 types; pushing a type already present leaves the state
unchanged, pushing with 2 types present is a no-op, and popping the last
remaining type collapses the state to `none`. -/
theorem c8_data_type_state :
    (∀ ops, DataTypeInv (runDataTypeOps none ops))
    ∧ (∀ l t, DataTypeInv (some l) → t ∈ l → data_type_push (some l) t = some l)
    ∧ (∀ l t, l.length = 2 → data_type_push (some l) t = some l)
    ∧ (∀ t, data_type_pop (some [t]) t = none) := by
  refine ⟨fun ops => runDataTypeOps_inv ops none (Or.inl rfl), ?_, ?_, ?_⟩
  · intro l t hinv hmem
    rcases hinv with h | ⟨l2, he, _hne, hlen, _hnd⟩
    · cases h
    · injection he with he2
      subst he2
      cases l with
      | nil => cases hmem
      | cons t0 rest =>
        cases rest with
        | nil =>
          have ht : t0 = t := by
            have := hmem
            simp only [List.mem_singleton] at this
            exact this.symm
          simp [data_type_push, ht]
        | cons t1 rest2 =>
          have hr2 : rest2 = [] := by
            simp only [List.length_cons] at hlen
            exact List.length_eq_zero.mp (by omega)
          subst hr2
          simp [data_type_push]
  · intro l t hlen
    cases l with
    | nil => simp at hlen
    | cons t0 rest => simp [data_type_push, hlen]
  · intro t
    simp [data_type_pop]

/-- Witness for C8: a concrete op sequence, an idempotent push, a push at
capacity, and a collapsing pop. -/
theorem c8_witness :
    DataTypeInv (runDataTypeOps none [.push .acc, .push .ecg, .pop .acc])
    ∧ data_type_push (some [.acc]) .acc = some [.acc]
    ∧ data_type_push (some [.acc, .ecg]) .ecg = some [.acc, .ecg]
    ∧ data_type_pop (some [.ecg]) .ecg = none :=
  ⟨c8_data_type_state.1 [.push .acc, .push .ecg, .pop .acc],
   c8_data_type_state.2.1 [.acc] .acc
     (Or.inr ⟨[.acc], rfl, by simp, by simp, by simp⟩) (by simp),
   c8_data_type_state.2.2.1 [.acc, .ecg] .ecg rfl,
   c8_data_type_state.2.2.2 .ecg⟩

/-- `StreamSettings` as described by the spec data model (§3): resolution,
optional range values (ACC only) and the supported sample rates for one
measurement type. -/
structure StreamSettings where
  measurement_type : H10MeasurementType
  resolution : Option Nat
  range : Option (List Nat)
  sample_rate : List Nat
  deriving DecidableEq, Repr

/-- Modelled from the spec: the settings-payload walk of
`StreamSettings::new`, whose definition is missing from `src/`
(`src/lib.rs` re-exports and calls it).  Spec §4.3: the parameters are a
repeating run of {setting-type tag (0 = SampleRate, 1 = Resolution,
else = Range), array length N, then N `(value, reserved)` pairs};
SampleRate and Range accumulate every value byte in device order,
Resolution keeps only the last value seen; walking past the end of the
buffer is an `InvalidData` condition, not a panic. -/
def settingsWalk : List Nat → List Nat → Option Nat → Option (List Nat) →
    Except Error (List Nat × Option Nat × Option (List Nat))
  | [], sr, res, rng => .ok (sr, res, rng)
  | [_tag], _sr, _res, _rng => .error .invalidData
  | tag :: n :: rest, sr, res, rng =>
    if 2 * n ≤ rest.length then
      let vals := (List.range n).map (fun i => rest.getD (2 * i) 0)
      if tag = 0 then settingsWalk (rest.drop (2 * n)) (sr ++ vals) res rng
      else if tag = 1 then
        settingsWalk (rest.drop (2 * n)) sr
          (match vals.getLast? with | some v => some v | none => res) rng
      else settingsWalk (rest.drop (2 * n)) sr res (some (rng.getD [] ++ vals))
    else .error .invalidData
termination_by bs _ _ _ => bs.length
decreasing_by
  all_goals simp only [List.length_drop, List.length_cons]
  all_goals omega

/-- Modelled from the spec: `StreamSettings::new` (missing from `src/`).
It takes a completed `ControlResponse`, fails with `WrongResponse` when
the response's opcode is not `GetMeasurementSettings`, and otherwise
parses the response's parameters with `settingsWalk`; `range` is `None`
when no Range tag appeared. -/
def StreamSettings.new (resp : ControlResponse) : Except Error StreamSettings :=
  if resp.opcode ≠ .getMeasurementSettings then .error .wrongResponse
  else
    match settingsWalk resp.parameters [] none none with
    | .ok (sr, res, rng) => .ok ⟨resp.measurement_type, res, rng, sr⟩
    | .error e => .error e

/-- C9: `StreamSettings::new` applied to any control response whose opcode
is not `GetMeasurementSettings` fails with `WrongResponse`; the guard
fires before any settings parsing. -/
theorem c9_wrong_opcode_guard (resp : ControlResponse)
    (h : resp.opcode ≠ .getMeasurementSettings) :
    StreamSettings.new resp = .error .wrongResponse := by
  simp only [StreamSettings.new, if_pos h]

/-- Witness for C9 at a concrete completed response with opcode
`StopMeasurement`. -/
theorem c9_witness :
    StreamSettings.new ⟨.success, .stopMeasurement, .ecg, .success, [], false⟩
      = .error .wrongResponse :=
  c9_wrong_opcode_guard ⟨.success, .stopMeasurement, .ecg, .success, [], false⟩
    (by decide)

end Arctic
